import Mathlib

/-!
Verification of `instantly-mcp-python`: a shallow embedding of the pure
content of `src/instantly_mcp/client.py` and `src/instantly_mcp/http_app.py`,
with theorems settling the behavioural claims about credential resolution,
timeout tiers, error parsing, rate-limit tracking, the ASGI middleware and
the HTTP router.
-/

namespace InstantlyMcp

/-! ## Generic helpers: Python-style truthiness and string utilities -/

/-- Python truthiness of an `Optional[str]`: `None` and `""` are falsy. -/
def optTruthy : Option String → Bool
  | none => false
  | some s => !s.data.isEmpty

/-- Python `a or b` on `Optional[str]` values: returns `a` when truthy,
otherwise `b` (even when `b` is falsy). -/
def pyOr (a b : Option String) : Option String :=
  if optTruthy a then a else b

/-- Lowercase an ASCII character (models `str.lower()` on the ASCII
header names and the `Bearer` prefix this code handles). -/
def charLower (c : Char) : Char :=
  if 'A' <= c && c <= 'Z' then Char.ofNat (c.toNat + 32) else c

/-- Lowercase a string character-wise. -/
def strLower (s : String) : String :=
  String.mk (s.data.map charLower)

/-- Boolean list-prefix test (used to model `str.startswith`). -/
def listIsPrefixOf : List Char → List Char → Bool
  | [], _ => true
  | _ :: _, [] => false
  | a :: as, b :: bs => a == b && listIsPrefixOf as bs

/-- Boolean substring containment on char lists (models Python `in` on `str`). -/
def listContains (hay needle : List Char) : Bool :=
  match hay with
  | [] => listIsPrefixOf needle []
  | _ :: t => listIsPrefixOf needle hay || listContains t needle

/-- Whether `sub` occurs as a substring of `s` (models Python `sub in s`). -/
def strContains (s sub : String) : Bool :=
  listContains s.data sub.data

/-- Strip leading and trailing whitespace (Python `int()` tolerates it). -/
def stripWs (l : List Char) : List Char :=
  ((l.dropWhile Char.isWhitespace).reverse.dropWhile Char.isWhitespace).reverse

/-- Models Python `int(str)`: optional surrounding whitespace, optional
sign, then one or more decimal digits.  Returns `none` where `int()` would
raise `ValueError`. -/
def pyParseInt (s : String) : Option Int :=
  let core : List Char → Option Int := fun ds =>
    if ds.isEmpty then none
    else if ds.all Char.isDigit then
      some (Int.ofNat (ds.foldl (fun acc c => acc * 10 + (c.toNat - 48)) 0))
    else none
  match stripWs s.data with
  | '+' :: ds => core ds
  | '-' :: ds => (core ds).map Int.neg
  | ds => core ds

/-! ## JSON values -/

/-- JSON values, as produced by `response.json()` / passed as request bodies. -/
inductive JVal where
  | null : JVal
  | bool : Bool → JVal
  | num : Int → JVal
  | str : String → JVal
  | arr : List JVal → JVal
  | obj : List (String × JVal) → JVal
  deriving Repr

/-- Python truthiness of a JSON value (`bool(x)`). -/
def JVal.truthy : JVal → Bool
  | .null => false
  | .bool b => b
  | .num n => n != 0
  | .str s => !s.data.isEmpty
  | .arr xs => !xs.isEmpty
  | .obj fs => !fs.isEmpty

/-- Key membership in a parsed-JSON object field list (`"k" in data`). -/
def hasKey (fields : List (String × JVal)) (k : String) : Bool :=
  fields.any (fun p => p.1 == k)

/-- Dictionary lookup (`data.get(k)`); later duplicates shadow earlier ones,
as when `json.loads` builds a `dict`. -/
def dictGet (fields : List (String × JVal)) (k : String) : Option JVal :=
  (fields.reverse.find? (fun p => p.1 == k)).map Prod.snd

mutual

/-- Python `repr` of a JSON value (the rendering `str()` applies to
non-string values such as dicts and lists). -/
def pyRepr : JVal → String
  | .null => "None"
  | .bool true => "True"
  | .bool false => "False"
  | .num n => toString n
  | .str s => "'" ++ s ++ "'"
  | .arr xs => "[" ++ pyReprList xs ++ "]"
  | .obj fs => "\x7b" ++ pyReprFields fs ++ "\x7d"

/-- Comma-joined reprs of a list's elements. -/
def pyReprList : List JVal → String
  | [] => ""
  | [x] => pyRepr x
  | x :: xs => pyRepr x ++ ", " ++ pyReprList xs

/-- Comma-joined reprs of a dict's entries. -/
def pyReprFields : List (String × JVal) → String
  | [] => ""
  | [(k, v)] => "'" ++ k ++ "': " ++ pyRepr v
  | (k, v) :: fs => "'" ++ k ++ "': " ++ pyRepr v ++ ", " ++ pyReprFields fs

end

/-- Python `str(x)`: the string itself for strings, `repr` otherwise. -/
def pyStr : JVal → String
  | .str s => s
  | v => pyRepr v

/-! ## `client.py`: timeout tiers -/

/-- Constant `DEFAULT_TIMEOUT = 60.0`. -/
def DEFAULT_TIMEOUT : ℚ := 60

/-- Constant `EXTENDED_TIMEOUT = 90.0`. -/
def EXTENDED_TIMEOUT : ℚ := 90

/-- Constant `SEARCH_TIMEOUT = 120.0`. -/
def SEARCH_TIMEOUT : ℚ := 120

/-- Models `InstantlyClient._get_timeout`: search gets 120s, endpoints containing
both `/leads` and `list` get 90s, everything else 60s. -/
def getTimeout (endpoint : String) (hasSearch : Bool) : ℚ :=
  if hasSearch then SEARCH_TIMEOUT
  else if strContains endpoint "/leads" && strContains endpoint "list" then EXTENDED_TIMEOUT
  else DEFAULT_TIMEOUT

/-! ## `client.py`: rate-limit tracking -/

/-- The `RateLimitInfo` dataclass.  `resetAt` models the `datetime` built by
`datetime.fromtimestamp(...)` as the underlying epoch integer, and
`lastUpdated` models `datetime.now()` as an abstract clock reading. -/
structure RateLimitInfo where
  remaining : Option Int := none
  limit : Option Int := none
  resetAt : Option Int := none
  lastUpdated : Option Int := none
  deriving Repr, DecidableEq

/-- Case-insensitive header lookup, modelling `httpx.Headers.__contains__`
and `__getitem__` (header names are matched case-insensitively; the first
occurrence is returned). -/
def headerGet (headers : List (String × String)) (k : String) : Option String :=
  (headers.find? (fun p => strLower p.1 == strLower k)).map Prod.snd

/-- Models `InstantlyClient._update_rate_limit`.  The source runs the three header
updates sequentially inside one `try` block catching `ValueError`/`KeyError`
with `pass`: a malformed value aborts the whole update at that point, keeping
any assignments already made and skipping `last_updated`. -/
def updateRateLimit (rl : RateLimitInfo) (headers : List (String × String)) (now : Int) :
    RateLimitInfo :=
  let step1 :=
    match headerGet headers "x-ratelimit-remaining" with
    | none => some rl
    | some s =>
      match pyParseInt s with
      | none => none
      | some n => some { rl with remaining := some n }
  match step1 with
  | none => rl
  | some rl1 =>
    let step2 :=
      match headerGet headers "x-ratelimit-limit" with
      | none => some rl1
      | some s =>
        match pyParseInt s with
        | none => none
        | some n => some { rl1 with limit := some n }
    match step2 with
    | none => rl1
    | some rl2 =>
      let step3 :=
        match headerGet headers "x-ratelimit-reset" with
        | none => some rl2
        | some s =>
          match pyParseInt s with
          | none => none
          | some n => some { rl2 with resetAt := some n }
      match step3 with
      | none => rl2
      | some rl3 => { rl3 with lastUpdated := some now }

/-! ## `client.py`: error-message extraction -/

/-- First 200 characters of the body, as in `response.text[:200]`. -/
def truncate200 (s : String) : String := String.mk (s.data.take 200)

/-- The `HTTP {status}: {text[:200]}` fallback message. -/
def fallbackMsg (status : Nat) (text : String) : String :=
  "HTTP " ++ toString status ++ ": " ++ truncate200 text

/-- Models `InstantlyClient._parse_error`.  `body` is `response.json()` when the
body parses as JSON and `none` when parsing raises.  The source's branches:
an `error` key wins (its `message` when `error` is a dict with one, else
`str(error)`), then top-level `message`, then `detail`, then the raw
status+truncated-body fallback (also for non-dict or unparseable bodies).
Non-string `message`/`detail` values are returned as-is, so the result is a
`JVal`. -/
def parseError (status : Nat) (body : Option JVal) (text : String) : JVal :=
  match body with
  | some (.obj fields) =>
    if hasKey fields "error" then
      match dictGet fields "error" with
      | some (.obj ef) =>
        match dictGet ef "message" with
        | some m => m
        | none => .str (pyStr (.obj ef))
      | some e => .str (pyStr e)
      | none => .str (fallbackMsg status text)
    else if hasKey fields "message" then
      match dictGet fields "message" with
      | some m => m
      | none => .str (fallbackMsg status text)
    else if hasKey fields "detail" then
      match dictGet fields "detail" with
      | some d => d
      | none => .str (fallbackMsg status text)
    else .str (fallbackMsg status text)
  | some _ => .str (fallbackMsg status text)
  | none => .str (fallbackMsg status text)

/-! ## `client.py`: construction and credential state -/

/-- Models `InstantlyClient.__post_init__`: when the key provided at construction
is falsy (absent or empty), fall back to `os.environ.get("INSTANTLY_API_KEY")`,
read once at construction.  The result is the client's `_api_key` field. -/
def postInit (provided envKey : Option String) : Option String :=
  if optTruthy provided then provided else envKey

/-- Models `InstantlyClient.set_api_key`: unconditionally overwrites `_api_key`. -/
def setApiKey (_current : Option String) (k : String) : Option String :=
  some k

/-- Models `InstantlyClient.has_api_key`: `bool(self._api_key)`. -/
def hasApiKey (instKey : Option String) : Bool :=
  optTruthy instKey

/-- The `ValueError` message raised by `request` when no key resolves. -/
def missingKeyMsg : String :=
  "Instantly API key is required. Provide via:\n" ++
  "  - URL path: /mcp/YOUR_API_KEY\n" ++
  "  - Header: Authorization: YOUR_API_KEY\n" ++
  "  - Header: x-instantly-api-key: YOUR_API_KEY\n" ++
  "  - Environment: INSTANTLY_API_KEY"

/-- Resolution `use_api_key = api_key or _get_request_api_key() or self._api_key`. -/
def resolveApiKey (argKey ctxKey instKey : Option String) : Option String :=
  pyOr argKey (pyOr ctxKey instKey)

/-! ## `client.py`: the `request` coroutine -/

/-- An HTTP response as `request` observes it: status code, headers, raw
text body, and `jsonBody = response.json()` (`none` when the body is not
parseable JSON). -/
structure HttpResponse where
  status : Nat
  headers : List (String × String) := []
  text : String := ""
  jsonBody : Option JVal := none

/-- The outcome of `request`: the parsed JSON on success, an
`httpx.HTTPStatusError` carrying the status and extracted message, the
missing-credential `ValueError`, or the `json` decode error raised by
`response.json()` on a success status with an unparseable body. -/
inductive RequestResult where
  | ok : JVal → RequestResult
  | statusError : Nat → JVal → RequestResult
  | missingKey : String → RequestResult
  | jsonDecodeError : RequestResult
  deriving Repr

/-- Everything observable about one `request` call: whether the HTTP call
was issued at all, the key placed in the outgoing `Authorization` header,
the timeout handed to `httpx.AsyncClient`, the returned value or raised
error, and the rate-limit tracker afterwards. -/
structure RequestOutcome where
  issuedHttp : Bool
  usedKey : Option String
  usedTimeout : Option ℚ
  result : RequestResult
  rlAfter : RateLimitInfo

/-- Computes `has_search = bool(json and json.get("search"))`: the body dict
must itself be truthy (non-empty) and hold a truthy `search` value. -/
def bodyHasSearch : Option (List (String × JVal)) → Bool
  | none => false
  | some fields =>
    !fields.isEmpty &&
      (match dictGet fields "search" with
       | some v => v.truthy
       | none => false)

/-- Computes `request_timeout = timeout or self._get_timeout(...)`: Python
`or` falls back to the tier when `timeout` is `None` or the falsy `0.0`. -/
def pyOrTimeout (timeout : Option ℚ) (tier : ℚ) : ℚ :=
  match timeout with
  | some t => if t ≠ 0 then t else tier
  | none => tier

/-- Status dispatch at the end of `request`: statuses `>= 400` raise
`httpx.HTTPStatusError` with the parsed message, `204` returns the
normalised success marker, anything else returns `response.json()` (which
raises when the body is not JSON). -/
def responseResult (resp : HttpResponse) : RequestResult :=
  if resp.status ≥ 400 then
    .statusError resp.status (parseError resp.status resp.jsonBody resp.text)
  else if resp.status == 204 then
    .ok (.obj [("success", .bool true)])
  else
    match resp.jsonBody with
    | some v => .ok v
    | none => .jsonDecodeError

/-- Models `InstantlyClient.request`, with the network abstracted: `resp` is the
response the server would return and `now` the clock reading taken by
`_update_rate_limit`.  Mirrors the source order: resolve the key (raising
`ValueError` before any HTTP traffic when it is falsy), compute
`has_search = bool(json and json.get("search"))` and
`request_timeout = timeout or _get_timeout(...)`, issue the call, update the
rate-limit tracker, then dispatch on the status code (`>= 400` raises the
parsed error, `204` returns `{"success": True}`, otherwise
`response.json()`). -/
def request (instKey : Option String) (rl : RateLimitInfo) (endpoint : String)
    (jsonBody : Option (List (String × JVal))) (argKey : Option String)
    (timeout : Option ℚ) (ctxKey : Option String) (resp : HttpResponse) (now : Int) :
    RequestOutcome :=
  let useApiKey := resolveApiKey argKey ctxKey instKey
  if !optTruthy useApiKey then
    { issuedHttp := false, usedKey := none, usedTimeout := none,
      result := .missingKey missingKeyMsg, rlAfter := rl }
  else
    { issuedHttp := true, usedKey := useApiKey,
      usedTimeout := some (pyOrTimeout timeout (getTimeout endpoint (bodyHasSearch jsonBody))),
      result := responseResult resp,
      rlAfter := updateRateLimit rl resp.headers now }

/-! ## `http_app.py`: header extraction -/

/-- The `headers_dict` lookup in `extract_api_key_from_headers`: keys are
lowercased and, as in a Python dict comprehension, a later occurrence of the
same (lowercased) name shadows an earlier one. -/
def asgiHeaderGet (headers : List (String × String)) (k : String) : Option String :=
  (((headers.map (fun p => (strLower p.1, p.2))).reverse.find? (fun p => p.1 == k)).map
    Prod.snd)

/-- Models `extract_api_key_from_headers`: `x-instantly-api-key` first (when
truthy), then `Authorization` (defaulting to `""`), stripping a
case-insensitive `"Bearer "` prefix by dropping 7 characters. -/
def extractApiKeyFromHeaders (headers : List (String × String)) : Option String :=
  let xkey := asgiHeaderGet headers "x-instantly-api-key"
  if optTruthy xkey then xkey
  else
    let auth := (asgiHeaderGet headers "authorization").getD ""
    if !auth.data.isEmpty then
      if listIsPrefixOf "bearer ".data (strLower auth).data then
        some (String.mk (auth.data.drop 7))
      else some auth
    else none

/-! ## `http_app.py`: path matching and the API-key middleware -/

/-- The regex `^/mcp/([^/]+)(/.*)?$` from `create_api_key_middleware`:
after the literal `/mcp/`, group 1 is the maximal nonempty run of
non-`/` characters and group 2 the rest of the path (empty or starting
with `/`). -/
def matchMcp (path : String) : Option (String × String) :=
  match path.data with
  | '/' :: 'm' :: 'c' :: 'p' :: '/' :: rest =>
    let seg := rest.takeWhile (fun c => c ≠ '/')
    if seg.isEmpty then none
    else some (String.mk seg, String.mk (rest.dropWhile (fun c => c ≠ '/')))
  | _ => none

/-- The pure content of `create_api_key_middleware`'s per-request logic:
resolve an API key from the path (unless the first segment is the reserved
`sse` or `messages`) and rewrite the path, falling back to the headers when
no path key was found; returns the resolved key and the path delegated
downstream. -/
def middlewareResolve (path : String) (headers : List (String × String)) :
    Option String × String :=
  let pk :=
    match matchMcp path with
    | some (seg, suffix) =>
      if seg == "sse" || seg == "messages" then ((none : Option String), path)
      else (some seg, "/mcp" ++ suffix)
    | none => (none, path)
  let apiKey := if !optTruthy pk.1 then extractApiKeyFromHeaders headers else pk.1
  (apiKey, pk.2)

/-! ## `http_app.py`: the request-context slot (`contextvars.ContextVar`) -/

/-- Models `ContextVar.set`: returns the new slot value and a token remembering the
prior value. -/
def cvSet (slot newVal : Option String) : Option String × Option String :=
  (newVal, slot)

/-- Models `ContextVar.reset(token)`: restores the value recorded in the token,
whatever the slot holds now. -/
def cvReset (_slot token : Option String) : Option String :=
  token

/-- Observable trace of one middleware pass over the request-context slot. -/
structure SlotTrace where
  slotDuring : Option String
  slotAfter : Option String
  raised : Bool

/-- The slot discipline of `create_api_key_middleware`: `token =
request_api_key.set(api_key)`, then `await app(...)` inside `try`, and
`request_api_key.reset(token)` in `finally` — executed whether the
downstream app returns normally or raises.  `app` is arbitrary: it receives
the slot value, and yields the slot value it leaves behind plus whether it
raised. -/
def middlewareSlotRun (slot0 : Option String) (path : String)
    (headers : List (String × String)) (app : Option String → Option String × Bool) :
    SlotTrace :=
  let apiKey := (middlewareResolve path headers).1
  let st := cvSet slot0 apiKey
  let ar := app st.1
  let slot3 := cvReset ar.1 st.2
  { slotDuring := st.1, slotAfter := slot3, raised := ar.2 }

/-! ## `http_app.py`: the router in `create_http_app` -/

/-- What the router does with an http request. -/
inductive RouteOutcome where
  | health : RouteOutcome
  | mcpForward : RouteOutcome
  | respond : Nat → JVal → RouteOutcome
  deriving Repr

/-- The 404 body sent for unknown paths. -/
def notFoundBody : JVal :=
  .obj [("error", .str "Not found"), ("hint", .str "MCP endpoint is at /mcp or /mcp/\x7bapi_key\x7d")]

/-- The `router` coroutine of `create_http_app`, restricted to http scopes:
`/` and `/health` get the health handler, any path for which
`path.startswith("/mcp")` holds is forwarded to the FastMCP ASGI app, and
everything else receives a 404 JSON response. -/
def routerDispatch (path : String) : RouteOutcome :=
  if path == "/" || path == "/health" then .health
  else if listIsPrefixOf "/mcp".data path.data then .mcpForward
  else .respond 404 notFoundBody

/-! ## Concurrent requests and the per-task context

`request_api_key` is a `contextvars.ContextVar`.  Under asyncio each
request is served in its own task with its own `Context`, so a `set`,
`get` (read) or `reset` performed by one task touches only that task's
copy of the variable.  We model two interleaved request handlers as two
tasks, each owning its own slot, scheduled by an arbitrary interleaving. -/

/-- One operation a request handler performs on the context variable:
the middleware's `set`, a read on behalf of the request (what
`get_request_api_key` returns inside the handler), and the `finally`
`reset`. -/
inductive TOp where
  | setOp : String → TOp
  | readOp : TOp
  | resetOp : TOp
  deriving Repr, DecidableEq

/-- A task: its private copy of the context variable, the token saved by
`set`, its remaining program, and the values its reads observed. -/
structure TaskCtx where
  slot : Option String := none
  saved : Option String := none
  prog : List TOp
  obs : List (Option String) := []
  deriving Repr, DecidableEq

/-- Run one step of a task (no-op when its program is exhausted). -/
def stepTask (t : TaskCtx) : TaskCtx :=
  match t.prog with
  | [] => t
  | .setOp k :: rest => { t with slot := some k, saved := t.slot, prog := rest }
  | .readOp :: rest => { t with obs := t.obs ++ [t.slot], prog := rest }
  | .resetOp :: rest => { t with slot := t.saved, prog := rest }

/-- Interleaved execution of two tasks under a schedule: `true` steps the
first task, `false` the second. -/
def execSched : List Bool → TaskCtx → TaskCtx → TaskCtx × TaskCtx
  | [], a, b => (a, b)
  | true :: sch, a, b => execSched sch (stepTask a) b
  | false :: sch, a, b => execSched sch a (stepTask b)

/-- The middleware-shaped program of one request carrying key `k`:
set the key, perform some number of reads while handling the request,
then reset. -/
def requestProg (k : String) (reads : Nat) : List TOp :=
  .setOp k :: (List.replicate reads .readOp ++ [.resetOp])

/-- A freshly spawned request task (context copied before the set). -/
def initTask (k : String) (reads : Nat) : TaskCtx :=
  { prog := requestProg k reads }

/-! ## Definitions transcribing the claims' own wording

These do NOT model the source; each follows the words of one spec claim, to
be compared against the source-derived definition above. -/

/-- First non-empty of the four credential sources exactly as the spec
words it: per-call arg, request-context value, configured key, environment
variable. -/
def claimResolveSpec (argKey ctxKey configuredKey envKey : Option String) : Option String :=
  if optTruthy argKey then argKey
  else if optTruthy ctxKey then ctxKey
  else if optTruthy configuredKey then configuredKey
  else if optTruthy envKey then envKey
  else none

/-- Rate-limit update exactly as the claim words it: each of the three
headers independently updates its field when present and parseable, a
missing or malformed header leaves (only) the corresponding field
unchanged, and the update never fails. -/
def updateRateLimitSpec (rl : RateLimitInfo) (headers : List (String × String)) :
    RateLimitInfo :=
  let upd : String → Option Int → Option Int := fun name old =>
    match headerGet headers name with
    | none => old
    | some s =>
      match pyParseInt s with
      | none => old
      | some n => some n
  { rl with
    remaining := upd "x-ratelimit-remaining" rl.remaining
    limit := upd "x-ratelimit-limit" rl.limit
    resetAt := upd "x-ratelimit-reset" rl.resetAt }

/-- The `message`/`detail`/fallback tail of the claimed priority order. -/
def fallbackOrLater (fields : List (String × JVal)) (status : Nat) (text : String) : JVal :=
  match dictGet fields "message" with
  | some m => m
  | none =>
    match dictGet fields "detail" with
    | some d => d
    | none => .str (fallbackMsg status text)

/-- Error-message priority exactly as the claim words it: nested
`error.message` when the body is a JSON object with an `error` key, else
top-level `message`, else top-level `detail`, else the
status+truncated-body fallback. -/
def parseErrorSpec (status : Nat) (body : Option JVal) (text : String) : JVal :=
  match body with
  | some (.obj fields) =>
    match dictGet fields "error" with
    | some (.obj ef) =>
      match dictGet ef "message" with
      | some m => m
      | none => fallbackOrLater fields status text
    | some _ => fallbackOrLater fields status text
    | none => fallbackOrLater fields status text
  | _ => .str (fallbackMsg status text)

/-- The mount point as the claim words it: the path `/mcp` itself or a path
of the form `/mcp/...`. -/
def isMountPointSpec (path : String) : Bool :=
  path == "/mcp" || listIsPrefixOf "/mcp/".data path.data

/-! ## Shared lemmas about `request` -/

/-- When no key resolves, `request` raises `ValueError` without touching
the network or the tracker. -/
theorem request_of_falsy (instKey : Option String) (rl : RateLimitInfo) (endpoint : String)
    (jsonBody : Option (List (String × JVal))) (argKey : Option String) (timeout : Option ℚ)
    (ctxKey : Option String) (resp : HttpResponse) (now : Int)
    (h : optTruthy (resolveApiKey argKey ctxKey instKey) = false) :
    request instKey rl endpoint jsonBody argKey timeout ctxKey resp now =
      { issuedHttp := false, usedKey := none, usedTimeout := none,
        result := .missingKey missingKeyMsg, rlAfter := rl } := by
  simp [request, h]

/-- When a key resolves, `request` performs the call with that key, the
`or`-selected timeout, the status-dispatched result, and the header-updated
tracker. -/
theorem request_of_truthy (instKey : Option String) (rl : RateLimitInfo) (endpoint : String)
    (jsonBody : Option (List (String × JVal))) (argKey : Option String) (timeout : Option ℚ)
    (ctxKey : Option String) (resp : HttpResponse) (now : Int)
    (h : optTruthy (resolveApiKey argKey ctxKey instKey) = true) :
    request instKey rl endpoint jsonBody argKey timeout ctxKey resp now =
      { issuedHttp := true, usedKey := resolveApiKey argKey ctxKey instKey,
        usedTimeout := some (pyOrTimeout timeout (getTimeout endpoint (bodyHasSearch jsonBody))),
        result := responseResult resp,
        rlAfter := updateRateLimit rl resp.headers now } := by
  simp [request, h]

/-- The key placed in the `Authorization` header, as a function of the
resolution chain (`none` when the call is refused). -/
theorem request_usedKey (instKey : Option String) (rl : RateLimitInfo) (endpoint : String)
    (jsonBody : Option (List (String × JVal))) (argKey : Option String) (timeout : Option ℚ)
    (ctxKey : Option String) (resp : HttpResponse) (now : Int) :
    (request instKey rl endpoint jsonBody argKey timeout ctxKey resp now).usedKey =
      if optTruthy (resolveApiKey argKey ctxKey instKey) then resolveApiKey argKey ctxKey instKey
      else none := by
  by_cases h : optTruthy (resolveApiKey argKey ctxKey instKey)
  · rw [request_of_truthy _ _ _ _ _ _ _ _ _ h, if_pos (by exact_mod_cast h)]
  · rw [request_of_falsy _ _ _ _ _ _ _ _ _ (by simpa using h),
      if_neg (by exact_mod_cast h)]

/-- The code's guarded resolution over a freshly constructed client agrees
with the four-source first-non-empty rule. -/
theorem guarded_resolve_postInit (argKey ctxKey provided envKey : Option String) :
    (if optTruthy (resolveApiKey argKey ctxKey (postInit provided envKey)) then
        resolveApiKey argKey ctxKey (postInit provided envKey)
      else none) = claimResolveSpec argKey ctxKey provided envKey := by
  unfold resolveApiKey pyOr postInit claimResolveSpec
  by_cases ha : optTruthy argKey <;> by_cases hc : optTruthy ctxKey <;>
    by_cases hp : optTruthy provided <;> by_cases he : optTruthy envKey <;>
    simp [ha, hc, hp, he]

/-- The code's guarded resolution after `set_api_key(k)` agrees with the
first-non-empty rule over arg, context and `k` alone (no environment). -/
theorem guarded_resolve_set (argKey ctxKey : Option String) (k : String) :
    (if optTruthy (resolveApiKey argKey ctxKey (some k)) then
        resolveApiKey argKey ctxKey (some k)
      else none) = claimResolveSpec argKey ctxKey (some k) none := by
  unfold resolveApiKey pyOr claimResolveSpec
  by_cases ha : optTruthy argKey <;> by_cases hc : optTruthy ctxKey <;>
    by_cases hk : optTruthy (some k) <;> simp [ha, hc, hk]

/-! ## C1: credential precedence -/

/-- C1 (amended): for a client that has not had `set_api_key` called, the
key used by `request` is the highest-precedence non-empty source among the
per-call argument, the request-context slot, the construction-time key and
the environment variable; after `set_api_key(k)` the construction-time
resolution is replaced entirely, so the key used is the first non-empty of
argument, context and `k`, with the environment no longer consulted. -/
theorem c1_credential_precedence (provided envKey argKey ctxKey : Option String) (k : String)
    (rl : RateLimitInfo) (endpoint : String) (jsonBody : Option (List (String × JVal)))
    (timeout : Option ℚ) (resp : HttpResponse) (now : Int) :
    (request (postInit provided envKey) rl endpoint jsonBody argKey timeout ctxKey resp
        now).usedKey = claimResolveSpec argKey ctxKey provided envKey ∧
    (request (setApiKey (postInit provided envKey) k) rl endpoint jsonBody argKey timeout
        ctxKey resp now).usedKey = claimResolveSpec argKey ctxKey (some k) none := by
  constructor
  · rw [request_usedKey, guarded_resolve_postInit]
  · rw [setApiKey, request_usedKey, guarded_resolve_set]

/-- C1 counterexample: construct with no key while `INSTANTLY_API_KEY`
holds `"E"`, then call `set_api_key("")`.  The claim's four-source rule
still resolves the environment key `"E"`, but the code raises the
missing-credential error and uses no key at all: `set_api_key` overwrote
the stored environment fallback. -/
theorem c1_counterexample :
    claimResolveSpec none none (some "") (some "E") = some "E" ∧
    setApiKey (postInit none (some "E")) "" = some "" ∧
    (request (setApiKey (postInit none (some "E")) "") {} "/x" none none none none
        ⟨200, [], "", some .null⟩ 0).usedKey = none ∧
    (request (setApiKey (postInit none (some "E")) "") {} "/x" none none none none
        ⟨200, [], "", some .null⟩ 0).result = .missingKey missingKeyMsg :=
  ⟨rfl, rfl, rfl, rfl⟩

/-! ## C2: middleware key resolution -/

/-- On a segment of non-`/` characters followed by a `/`-headed (or empty)
suffix, `takeWhile` recovers exactly the segment. -/
theorem takeWhile_seg_append (seg suffix : List Char) (hseg : ∀ c ∈ seg, c ≠ '/')
    (hsuf : suffix = [] ∨ ∃ t, suffix = '/' :: t) :
    (seg ++ suffix).takeWhile (fun c => c ≠ '/') = seg := by
  induction seg with
  | nil =>
    rcases hsuf with h | ⟨t, h⟩ <;> subst h <;> simp [List.takeWhile]
  | cons c cs ih =>
    have hc : c ≠ '/' := hseg c (by simp)
    have ih2 := ih (fun x hx => hseg x (by simp [hx]))
    simp only [decide_not] at ih2
    simp [List.takeWhile_cons, hc, ih2]

/-- On the same decomposition, `dropWhile` recovers exactly the suffix. -/
theorem dropWhile_seg_append (seg suffix : List Char) (hseg : ∀ c ∈ seg, c ≠ '/')
    (hsuf : suffix = [] ∨ ∃ t, suffix = '/' :: t) :
    (seg ++ suffix).dropWhile (fun c => c ≠ '/') = suffix := by
  induction seg with
  | nil =>
    rcases hsuf with h | ⟨t, h⟩ <;> subst h <;> simp [List.dropWhile]
  | cons c cs ih =>
    have hc : c ≠ '/' := hseg c (by simp)
    simp only [List.cons_append, List.dropWhile_cons, decide_eq_true hc, if_true]
    exact ih (fun x hx => hseg x (by simp [hx]))

/-- The regex `^/mcp/([^/]+)(/.*)?$` matches `/mcp/` followed by a nonempty
slash-free segment and a suffix that is empty or starts with `/`, and its
groups are exactly that segment and suffix. -/
theorem matchMcp_decompose (seg suffix : List Char) (hne : seg ≠ [])
    (hseg : ∀ c ∈ seg, c ≠ '/') (hsuf : suffix = [] ∨ ∃ t, suffix = '/' :: t) :
    matchMcp (String.mk ('/' :: 'm' :: 'c' :: 'p' :: '/' :: (seg ++ suffix)))
      = some (String.mk seg, String.mk suffix) := by
  unfold matchMcp
  simp only [takeWhile_seg_append seg suffix hseg hsuf,
    dropWhile_seg_append seg suffix hseg hsuf]
  simp [hne]

/-- C2 (confirmed): middleware key resolution.  (1) A path `/mcp/<seg>`
(optionally followed by more path) with `<seg>` not reserved resolves
`<seg>` as the key and delegates `/mcp` plus the remaining suffix.  (2) A
reserved segment (`sse`, `messages`) is never treated as a key and leaves
the path unmodified, falling back to the headers.  (3) When the path has no
candidate, the key comes from the headers and the path is unmodified.
(4) A non-empty `x-instantly-api-key` header wins.  (5) Otherwise a
non-empty `Authorization` header is used, with a case-insensitive
`Bearer ` prefix stripped (7 characters dropped).  (6) With neither header
non-empty, no key resolves. -/
theorem c2_middleware_key_resolution :
    (∀ (seg suffix : List Char) (headers : List (String × String)), seg ≠ [] →
      (∀ c ∈ seg, c ≠ '/') → (suffix = [] ∨ ∃ t, suffix = '/' :: t) →
      String.mk seg ≠ "sse" → String.mk seg ≠ "messages" →
      middlewareResolve (String.mk ('/' :: 'm' :: 'c' :: 'p' :: '/' :: (seg ++ suffix)))
          headers = (some (String.mk seg), "/mcp" ++ String.mk suffix)) ∧
    (∀ (seg suffix : List Char) (headers : List (String × String)), seg ≠ [] →
      (∀ c ∈ seg, c ≠ '/') → (suffix = [] ∨ ∃ t, suffix = '/' :: t) →
      (String.mk seg = "sse" ∨ String.mk seg = "messages") →
      middlewareResolve (String.mk ('/' :: 'm' :: 'c' :: 'p' :: '/' :: (seg ++ suffix)))
          headers =
        (extractApiKeyFromHeaders headers,
          String.mk ('/' :: 'm' :: 'c' :: 'p' :: '/' :: (seg ++ suffix)))) ∧
    (∀ (path : String) (headers : List (String × String)), matchMcp path = none →
      middlewareResolve path headers = (extractApiKeyFromHeaders headers, path)) ∧
    (∀ (headers : List (String × String)) (v : String),
      asgiHeaderGet headers "x-instantly-api-key" = some v → v ≠ "" →
      extractApiKeyFromHeaders headers = some v) ∧
    (∀ (headers : List (String × String)) (a : String),
      (asgiHeaderGet headers "x-instantly-api-key" = none ∨
        asgiHeaderGet headers "x-instantly-api-key" = some "") →
      asgiHeaderGet headers "authorization" = some a → a ≠ "" →
      extractApiKeyFromHeaders headers =
        (if listIsPrefixOf "bearer ".data (strLower a).data then
            some (String.mk (a.data.drop 7))
          else some a)) ∧
    (∀ headers : List (String × String),
      (asgiHeaderGet headers "x-instantly-api-key" = none ∨
        asgiHeaderGet headers "x-instantly-api-key" = some "") →
      (asgiHeaderGet headers "authorization" = none ∨
        asgiHeaderGet headers "authorization" = some "") →
      extractApiKeyFromHeaders headers = none) := by
  refine ⟨?_, ?_, ?_, ?_, ?_, ?_⟩
  · intro seg suffix headers hne hseg hsuf hs hm
    have hmm := matchMcp_decompose seg suffix hne hseg hsuf
    have hsb : (String.mk seg == "sse") = false := beq_eq_false_iff_ne.mpr hs
    have hmb : (String.mk seg == "messages") = false := beq_eq_false_iff_ne.mpr hm
    have htruthy : optTruthy (some (String.mk seg)) = true := by
      simp [optTruthy]
      intro h
      exact hne h
    simp [middlewareResolve, hmm, hsb, hmb, htruthy]
  · intro seg suffix headers hne hseg hsuf hres
    have hmm := matchMcp_decompose seg suffix hne hseg hsuf
    rcases hres with h | h <;> simp [middlewareResolve, hmm, h, optTruthy]
  · intro path headers h
    simp [middlewareResolve, h, optTruthy]
  · intro headers v hv hvne
    have hvd : v.data ≠ [] := fun hd => hvne (String.ext hd)
    simp [extractApiKeyFromHeaders, hv, optTruthy, hvd]
  · intro headers a hx ha hane
    have hadata : a.data ≠ [] := fun hd => hane (String.ext hd)
    have hxf : optTruthy (asgiHeaderGet headers "x-instantly-api-key") = false := by
      rcases hx with h | h <;> simp [h, optTruthy]
    simp [extractApiKeyFromHeaders, hxf, ha, hadata]
  · intro headers hx ha
    have hxf : optTruthy (asgiHeaderGet headers "x-instantly-api-key") = false := by
      rcases hx with h | h <;> simp [h, optTruthy]
    rcases ha with h | h <;> simp [extractApiKeyFromHeaders, hxf, h]

/-- C2 witness: `/mcp/secret123/sse` resolves key `secret123` and delegates
`/mcp/sse`, by the theorem applied at that concrete path. -/
theorem c2_witness :
    middlewareResolve
        (String.mk ('/' :: 'm' :: 'c' :: 'p' :: '/' :: ("secret123".data ++ "/sse".data))) []
      = (some (String.mk "secret123".data), "/mcp" ++ String.mk "/sse".data) :=
  c2_middleware_key_resolution.1 "secret123".data "/sse".data [] (by decide) (by decide)
    (Or.inr ⟨"sse".data, by decide⟩) (by decide) (by decide)

/-! ## C3: timeout tiers -/

/-- C3 (amended): with a resolvable key, an explicitly supplied non-zero
timeout is always used; with no explicit timeout, a body with a truthy
`search` field selects 120s regardless of endpoint, otherwise an endpoint
containing both `/leads` and `list` selects 90s, and anything else 60s.
(An explicit timeout of `0` is falsy in Python and is ignored — see the
counterexample.) -/
theorem c3_timeout_tiers (instKey argKey ctxKey : Option String) (rl : RateLimitInfo)
    (endpoint : String) (jsonBody : Option (List (String × JVal))) (resp : HttpResponse)
    (now : Int) (hkey : optTruthy (resolveApiKey argKey ctxKey instKey) = true) :
    (∀ t : ℚ, t ≠ 0 →
      (request instKey rl endpoint jsonBody argKey (some t) ctxKey resp now).usedTimeout
        = some t) ∧
    (bodyHasSearch jsonBody = true →
      (request instKey rl endpoint jsonBody argKey none ctxKey resp now).usedTimeout
        = some SEARCH_TIMEOUT) ∧
    (bodyHasSearch jsonBody = false → strContains endpoint "/leads" = true →
      strContains endpoint "list" = true →
      (request instKey rl endpoint jsonBody argKey none ctxKey resp now).usedTimeout
        = some EXTENDED_TIMEOUT) ∧
    (bodyHasSearch jsonBody = false →
      (strContains endpoint "/leads" && strContains endpoint "list") = false →
      (request instKey rl endpoint jsonBody argKey none ctxKey resp now).usedTimeout
        = some DEFAULT_TIMEOUT) := by
  refine ⟨?_, ?_, ?_, ?_⟩
  · intro t ht
    rw [request_of_truthy _ _ _ _ _ _ _ _ _ hkey]
    simp [pyOrTimeout, ht]
  · intro hs
    rw [request_of_truthy _ _ _ _ _ _ _ _ _ hkey]
    simp [pyOrTimeout, getTimeout, hs]
  · intro hs h1 h2
    rw [request_of_truthy _ _ _ _ _ _ _ _ _ hkey]
    simp [pyOrTimeout, getTimeout, hs, h1, h2]
  · intro hs h12
    rw [request_of_truthy _ _ _ _ _ _ _ _ _ hkey]
    simp [pyOrTimeout, getTimeout, hs, h12]

/-- C3 witness: `/leads/list` with no search and no explicit timeout gets
the 90s extended tier, by the theorem at concrete inputs. -/
theorem c3_witness :
    (request (some "K") {} "/leads/list" none none none none ⟨200, [], "", some .null⟩
        0).usedTimeout = some EXTENDED_TIMEOUT :=
  (c3_timeout_tiers (some "K") none none {} "/leads/list" none ⟨200, [], "", some .null⟩ 0
    (by decide)).2.2.1 (by decide) (by decide) (by decide)

/-- C3 counterexample: an explicitly supplied per-call timeout of `0` is
NOT used — `timeout or self._get_timeout(...)` treats `0.0` as falsy, so
the tier-selected 60s is used instead of the supplied value. -/
theorem c3_counterexample :
    (request (some "K") {} "/x" none none (some 0) none ⟨200, [], "", some .null⟩
        0).usedTimeout = some DEFAULT_TIMEOUT ∧
    some (0 : ℚ) ≠ some DEFAULT_TIMEOUT := by
  constructor
  · rfl
  · intro h
    simp [DEFAULT_TIMEOUT] at h

/-! ## C4: error-message extraction -/

/-- A successful lookup implies key membership. -/
theorem hasKey_of_dictGet (fields : List (String × JVal)) (k : String) (v : JVal)
    (h : dictGet fields k = some v) : hasKey fields k = true := by
  unfold dictGet at h
  cases hf : fields.reverse.find? (fun p => p.1 == k) with
  | none => rw [hf] at h; exact absurd h (by simp)
  | some pr =>
    have hm : pr ∈ fields.reverse := List.mem_of_find?_eq_some hf
    have hpk := List.find?_some hf
    exact List.any_eq_true.mpr ⟨pr, List.mem_reverse.mp hm, hpk⟩

/-- An absent key yields no lookup result. -/
theorem dictGet_of_not_hasKey (fields : List (String × JVal)) (k : String)
    (h : hasKey fields k = false) : dictGet fields k = none := by
  cases hd : dictGet fields k with
  | none => rfl
  | some v => rw [hasKey_of_dictGet fields k v hd] at h; exact absurd h (by simp)

/-- C4 (amended): message extraction for error responses.  When the body is
a JSON object with an `error` key: a dict-valued `error` yields its
`message` field when present, else the string rendering of the `error`
dict; a non-dict `error` yields its own string rendering (the claimed
top-level `message`/`detail` fallbacks are NOT consulted in that case).
Without an `error` key the top-level `message`, then `detail`, then the
`HTTP {status}: ` + first-200-characters fallback apply, the fallback also
covering non-object and unparseable bodies; and the raised status error
carries the original status code.  The extraction is a total function and
never fails. -/
theorem c4_error_message_priority :
    (∀ (status : Nat) (fields ef : List (String × JVal)) (text : String) (m : JVal),
      dictGet fields "error" = some (.obj ef) → dictGet ef "message" = some m →
      parseError status (some (.obj fields)) text = m) ∧
    (∀ (status : Nat) (fields ef : List (String × JVal)) (text : String),
      dictGet fields "error" = some (.obj ef) → dictGet ef "message" = none →
      parseError status (some (.obj fields)) text = .str (pyStr (.obj ef))) ∧
    (∀ (status : Nat) (fields : List (String × JVal)) (text : String) (e : JVal),
      dictGet fields "error" = some e → (∀ ef, e ≠ .obj ef) →
      parseError status (some (.obj fields)) text = .str (pyStr e)) ∧
    (∀ (status : Nat) (fields : List (String × JVal)) (text : String) (m : JVal),
      hasKey fields "error" = false → dictGet fields "message" = some m →
      parseError status (some (.obj fields)) text = m) ∧
    (∀ (status : Nat) (fields : List (String × JVal)) (text : String) (d : JVal),
      hasKey fields "error" = false → hasKey fields "message" = false →
      dictGet fields "detail" = some d →
      parseError status (some (.obj fields)) text = d) ∧
    (∀ (status : Nat) (fields : List (String × JVal)) (text : String),
      hasKey fields "error" = false → hasKey fields "message" = false →
      hasKey fields "detail" = false →
      parseError status (some (.obj fields)) text =
        .str ("HTTP " ++ toString status ++ ": " ++ String.mk (text.data.take 200))) ∧
    (∀ (status : Nat) (text : String) (body : Option JVal),
      (body = none ∨ ∀ fields, body ≠ some (.obj fields)) →
      parseError status body text = .str (fallbackMsg status text)) ∧
    (∀ (instKey argKey ctxKey : Option String) (rl : RateLimitInfo) (endpoint : String)
      (jsonBody : Option (List (String × JVal))) (timeout : Option ℚ) (resp : HttpResponse)
      (now : Int), optTruthy (resolveApiKey argKey ctxKey instKey) = true →
      resp.status ≥ 400 →
      (request instKey rl endpoint jsonBody argKey timeout ctxKey resp now).result =
        .statusError resp.status (parseError resp.status resp.jsonBody resp.text)) := by
  refine ⟨?_, ?_, ?_, ?_, ?_, ?_, ?_, ?_⟩
  · intro status fields ef text m herr hmsg
    have hk := hasKey_of_dictGet fields "error" _ herr
    simp [parseError, hk, herr, hmsg]
  · intro status fields ef text herr hmsg
    have hk := hasKey_of_dictGet fields "error" _ herr
    simp [parseError, hk, herr, hmsg]
  · intro status fields text e herr hnd
    have hk := hasKey_of_dictGet fields "error" _ herr
    cases e with
    | obj ef => exact absurd rfl (hnd ef)
    | null => simp [parseError, hk, herr]
    | bool b => simp [parseError, hk, herr]
    | num n => simp [parseError, hk, herr]
    | str s => simp [parseError, hk, herr]
    | arr xs => simp [parseError, hk, herr]
  · intro status fields text m herr hmsg
    have hkm := hasKey_of_dictGet fields "message" _ hmsg
    simp [parseError, herr, hkm, hmsg]
  · intro status fields text d herr hmsg hdet
    have hkd := hasKey_of_dictGet fields "detail" _ hdet
    simp [parseError, herr, hmsg, hkd, hdet]
  · intro status fields text herr hmsg hdet
    simp [parseError, herr, hmsg, hdet, fallbackMsg, truncate200]
  · intro status text body hb
    rcases hb with h | h
    · subst h; rfl
    · cases body with
      | none => rfl
      | some v =>
        cases v with
        | obj fields => exact absurd rfl (h fields)
        | null => rfl
        | bool b => rfl
        | num n => rfl
        | str s => rfl
        | arr xs => rfl
  · intro instKey argKey ctxKey rl endpoint jsonBody timeout resp now hkey hst
    rw [request_of_truthy _ _ _ _ _ _ _ _ _ hkey]
    simp [responseResult, hst]

/-- C4 witness: a body whose `error` value is an object with a `message`
yields that nested message, by the theorem at concrete inputs. -/
theorem c4_witness :
    parseError 400 (some (.obj [("error", .obj [("message", .str "boom")])])) "raw"
      = .str "boom" :=
  c4_error_message_priority.1 400 [("error", .obj [("message", .str "boom")])]
    [("message", .str "boom")] "raw" (.str "boom") rfl rfl

/-- C4 counterexample: on body `{"error": "E", "message": "M"}` there is no
nested `error.message`, so the claimed priority falls through to the
top-level `message` value `"M"`; the code instead returns `str(error)`,
i.e. `"E"`, because any `error` key short-circuits the remaining
branches. -/
theorem c4_counterexample :
    parseError 400 (some (.obj [("error", .str "E"), ("message", .str "M")])) "raw"
      = .str "E" ∧
    parseErrorSpec 400 (some (.obj [("error", .str "E"), ("message", .str "M")])) "raw"
      = .str "M" ∧
    parseError 400 (some (.obj [("error", .str "E"), ("message", .str "M")])) "raw"
      ≠ parseErrorSpec 400 (some (.obj [("error", .str "E"), ("message", .str "M")])) "raw" := by
  refine ⟨rfl, rfl, ?_⟩
  intro h
  rw [show parseError 400 (some (.obj [("error", .str "E"), ("message", .str "M")])) "raw"
      = .str "E" from rfl,
    show parseErrorSpec 400 (some (.obj [("error", .str "E"), ("message", .str "M")])) "raw"
      = .str "M" from rfl] at h
  injection h with h1
  exact absurd h1 (by decide)

/-! ## C5: the request-context slot is restored on every exit path -/

/-- C5 (confirmed): the middleware sets the slot to the resolved key before
delegating, and — whatever slot value the downstream app leaves behind and
whether it returns normally or raises — the `finally` reset restores the
slot to exactly the value it held before the request. -/
theorem c5_slot_set_and_restored (slot0 : Option String) (path : String)
    (headers : List (String × String)) (app : Option String → Option String × Bool) :
    (middlewareSlotRun slot0 path headers app).slotDuring
        = (middlewareResolve path headers).1 ∧
    (middlewareSlotRun slot0 path headers app).slotAfter = slot0 ∧
    (middlewareSlotRun slot0 path headers app).raised
        = (app (middlewareResolve path headers).1).2 :=
  ⟨rfl, rfl, rfl⟩

/-! ## C6: concurrent requests observe only their own key -/

/-- All observations a task has recorded are its own key. -/
def obsOnly (k : String) (t : TaskCtx) : Prop :=
  ∀ o ∈ t.obs, o = some k

/-- Execution phases of a request task for key `k`: not yet set, set and
reading, or finished. -/
def taskShape (k : String) (t : TaskCtx) : Prop :=
  (∃ n, t.prog = requestProg k n) ∨
  (t.slot = some k ∧ ∃ n, t.prog = List.replicate n TOp.readOp ++ [TOp.resetOp]) ∨
  t.prog = []

/-- One step of a request task preserves its phase and reads only its own
key. -/
theorem stepTask_preserves (k : String) (t : TaskCtx) (hs : taskShape k t)
    (ho : obsOnly k t) : taskShape k (stepTask t) ∧ obsOnly k (stepTask t) := by
  rcases hs with ⟨n, hp⟩ | ⟨hslot, n, hp⟩ | hp
  · simp only [requestProg] at hp
    have hstep : stepTask t = { t with slot := some k, saved := t.slot, prog := List.replicate n TOp.readOp ++ [TOp.resetOp] } := by
      unfold stepTask
      rw [hp]
    refine ⟨?_, ?_⟩
    · rw [hstep]
      exact Or.inr (Or.inl ⟨rfl, n, rfl⟩)
    · rw [hstep]
      intro o homem
      exact ho o homem
  · cases n with
    | zero =>
      simp only [List.replicate, List.nil_append] at hp
      have hstep : stepTask t = { t with slot := t.saved, prog := [] } := by
        unfold stepTask
        rw [hp]
      refine ⟨Or.inr (Or.inr (by rw [hstep])), ?_⟩
      rw [hstep]
      intro o homem
      exact ho o homem
    | succ m =>
      have hp2 : t.prog = TOp.readOp :: (List.replicate m TOp.readOp ++ [TOp.resetOp]) := by
        rw [hp, List.replicate_succ, List.cons_append]
      have hstep : stepTask t = { t with obs := t.obs ++ [t.slot], prog := List.replicate m TOp.readOp ++ [TOp.resetOp] } := by
        unfold stepTask
        rw [hp2]
      refine ⟨Or.inr (Or.inl (by rw [hstep]; exact ⟨hslot, m, rfl⟩)), ?_⟩
      rw [hstep]
      intro o homem
      rcases List.mem_append.mp homem with h | h
      · exact ho o h
      · rw [List.mem_singleton.mp h, hslot]
  · have hstep : stepTask t = t := by
      unfold stepTask
      rw [hp]
    rw [hstep]
    exact ⟨Or.inr (Or.inr hp), ho⟩

/-- Interleaved execution preserves both tasks' invariants: each task's
steps touch only its own context. -/
theorem execSched_preserves (sch : List Bool) (kA kB : String) (a b : TaskCtx)
    (ha1 : taskShape kA a) (ha2 : obsOnly kA a) (hb1 : taskShape kB b)
    (hb2 : obsOnly kB b) :
    (taskShape kA (execSched sch a b).1 ∧ obsOnly kA (execSched sch a b).1) ∧
    (taskShape kB (execSched sch a b).2 ∧ obsOnly kB (execSched sch a b).2) := by
  induction sch generalizing a b with
  | nil => exact ⟨⟨ha1, ha2⟩, hb1, hb2⟩
  | cons s rest ih =>
    cases s
    · have hb := stepTask_preserves kB b hb1 hb2
      simpa only [execSched] using ih a (stepTask b) ha1 ha2 hb.1 hb.2
    · have ha := stepTask_preserves kA a ha1 ha2
      simpa only [execSched] using ih (stepTask a) b ha.1 ha.2 hb1 hb2

/-- C6 (confirmed): under any interleaving of two request tasks carrying
distinct keys, every read performed on behalf of one request observes that
request's own key and never the other's.  The context variable is modelled
per-task, as `contextvars` under asyncio guarantees: each task mutates only
its own copy of the slot. -/
theorem c6_context_isolation (sch : List Bool) (kA kB : String) (nA nB : Nat)
    (hne : kA ≠ kB) :
    ((execSched sch (initTask kA nA) (initTask kB nB)).1.obs.all
      (fun o => o == some kA && !(o == some kB))) = true ∧
    ((execSched sch (initTask kA nA) (initTask kB nB)).2.obs.all
      (fun o => o == some kB && !(o == some kA))) = true := by
  have hinit : ∀ (k : String) (n : Nat),
      taskShape k (initTask k n) ∧ obsOnly k (initTask k n) := by
    intro k n
    exact ⟨Or.inl ⟨n, rfl⟩, fun o ho => absurd ho (by simp [initTask])⟩
  have h := execSched_preserves sch kA kB (initTask kA nA) (initTask kB nB)
    (hinit kA nA).1 (hinit kA nA).2 (hinit kB nB).1 (hinit kB nB).2
  constructor
  · apply List.all_eq_true.mpr
    intro o ho
    rw [h.1.2 o ho]
    simp [hne]
  · apply List.all_eq_true.mpr
    intro o ho
    rw [h.2.2 o ho]
    have hne2 : kB ≠ kA := fun hx => hne hx.symm
    simp [hne2]

/-- C6 witness: a concrete interleaving of two two-read requests with keys
`k1` and `k2`; every observation of the first task is `k1` and of the
second `k2`, by the theorem at that schedule. -/
theorem c6_witness :
    ("k1" : String) ≠ "k2" ∧
    (((execSched [true, false, true, true, false, false, true, false]
          (initTask "k1" 2) (initTask "k2" 2)).1.obs.all
        (fun o => o == some "k1" && !(o == some "k2"))) = true ∧
      ((execSched [true, false, true, true, false, false, true, false]
          (initTask "k1" 2) (initTask "k2" 2)).2.obs.all
        (fun o => o == some "k2" && !(o == some "k1"))) = true) :=
  ⟨by decide,
    c6_context_isolation [true, false, true, true, false, false, true, false]
      "k1" "k2" 2 2 (by decide)⟩

/-! ## C7: rate-limit tracking updates -/

/-- C7 (amended): the tracker update runs in source order remaining, limit,
reset.  (1) When all three headers are present and parse, all three fields
and `last_updated` are set.  (2) When none is present, only `last_updated`
changes.  (3) A malformed `x-ratelimit-remaining` aborts the entire update,
leaving every field (including `last_updated`) at its prior value.  (4) A
malformed later header keeps the fields already assigned before it and
leaves the rest (including `last_updated`) untouched.  (5) The update is a
total function applied to the response headers of every completed call,
error responses included, and so never fails the call. -/
theorem c7_rate_limit_update :
    (∀ (rl : RateLimitInfo) (headers : List (String × String)) (now : Int)
      (sr sl ss : String) (nr nl ns : Int),
      headerGet headers "x-ratelimit-remaining" = some sr → pyParseInt sr = some nr →
      headerGet headers "x-ratelimit-limit" = some sl → pyParseInt sl = some nl →
      headerGet headers "x-ratelimit-reset" = some ss → pyParseInt ss = some ns →
      updateRateLimit rl headers now = { remaining := some nr, limit := some nl, resetAt := some ns, lastUpdated := some now }) ∧
    (∀ (rl : RateLimitInfo) (headers : List (String × String)) (now : Int),
      headerGet headers "x-ratelimit-remaining" = none →
      headerGet headers "x-ratelimit-limit" = none →
      headerGet headers "x-ratelimit-reset" = none →
      updateRateLimit rl headers now = { rl with lastUpdated := some now }) ∧
    (∀ (rl : RateLimitInfo) (headers : List (String × String)) (now : Int) (sr : String),
      headerGet headers "x-ratelimit-remaining" = some sr → pyParseInt sr = none →
      updateRateLimit rl headers now = rl) ∧
    (∀ (rl : RateLimitInfo) (headers : List (String × String)) (now : Int)
      (sr sl : String) (nr : Int),
      headerGet headers "x-ratelimit-remaining" = some sr → pyParseInt sr = some nr →
      headerGet headers "x-ratelimit-limit" = some sl → pyParseInt sl = none →
      updateRateLimit rl headers now = { rl with remaining := some nr }) ∧
    (∀ (instKey argKey ctxKey : Option String) (rl : RateLimitInfo) (endpoint : String)
      (jsonBody : Option (List (String × JVal))) (timeout : Option ℚ)
      (resp : HttpResponse) (now : Int),
      optTruthy (resolveApiKey argKey ctxKey instKey) = true →
      (request instKey rl endpoint jsonBody argKey timeout ctxKey resp now).rlAfter =
        updateRateLimit rl resp.headers now) := by
  refine ⟨?_, ?_, ?_, ?_, ?_⟩
  · intro rl headers now sr sl ss nr nl ns hr hrp hl hlp hs hsp
    simp [updateRateLimit, hr, hrp, hl, hlp, hs, hsp]
  · intro rl headers now hr hl hs
    simp [updateRateLimit, hr, hl, hs]
  · intro rl headers now sr hr hrp
    simp [updateRateLimit, hr, hrp]
  · intro rl headers now sr sl nr hr hrp hl hlp
    simp [updateRateLimit, hr, hrp, hl, hlp]
  · intro instKey argKey ctxKey rl endpoint jsonBody timeout resp now hkey
    rw [request_of_truthy _ _ _ _ _ _ _ _ _ hkey]

/-- C7 witness: all three headers valid on a fresh tracker, by the theorem
at concrete inputs. -/
theorem c7_witness :
    updateRateLimit {} [("x-ratelimit-remaining", "42"), ("x-ratelimit-limit", "100"),
        ("x-ratelimit-reset", "1700000000")] 5 = { remaining := some 42, limit := some 100, resetAt := some 1700000000, lastUpdated := some 5 } :=
  c7_rate_limit_update.1 {} [("x-ratelimit-remaining", "42"), ("x-ratelimit-limit", "100"),
    ("x-ratelimit-reset", "1700000000")] 5 "42" "100" "1700000000" 42 100 1700000000
    (by decide) (by decide) (by decide) (by decide) (by decide) (by decide)

/-- C7 counterexample: with a malformed `x-ratelimit-remaining` and a
well-formed `x-ratelimit-limit: 100` on the same response, the claim says
the malformed header is ignored and `limit` is set to 100; the code's
single `try` block aborts the whole update, leaving `limit` at its prior
value 7. -/
theorem c7_counterexample :
    updateRateLimit { remaining := some 5, limit := some 7, resetAt := some 9, lastUpdated := some 0 } [("x-ratelimit-remaining", "not-a-number"), ("x-ratelimit-limit", "100")] 1 = { remaining := some 5, limit := some 7, resetAt := some 9, lastUpdated := some 0 } ∧
    (updateRateLimitSpec { remaining := some 5, limit := some 7, resetAt := some 9, lastUpdated := some 0 } [("x-ratelimit-remaining", "not-a-number"), ("x-ratelimit-limit", "100")]).limit = some 100 ∧
    (updateRateLimit { remaining := some 5, limit := some 7, resetAt := some 9, lastUpdated := some 0 } [("x-ratelimit-remaining", "not-a-number"), ("x-ratelimit-limit", "100")] 1).limit ≠ (updateRateLimitSpec { remaining := some 5, limit := some 7, resetAt := some 9, lastUpdated := some 0 } [("x-ratelimit-remaining", "not-a-number"), ("x-ratelimit-limit", "100")]).limit :=
  ⟨by decide, by decide, by decide⟩

/-! ## C8: router path classes -/

/-- A prefix of a longer prefix is itself a prefix. -/
theorem listIsPrefixOf_of_append (a b l : List Char)
    (h : listIsPrefixOf (a ++ b) l = true) : listIsPrefixOf a l = true := by
  induction a generalizing l with
  | nil => rfl
  | cons c cs ih =>
    cases l with
    | nil => simp [listIsPrefixOf] at h
    | cons d ds =>
      rw [List.cons_append, listIsPrefixOf] at h
      rw [listIsPrefixOf]
      simp only [Bool.and_eq_true] at h
      rw [h.1, ih ds h.2]
      rfl

/-- C8 (amended): the router sends `/` and `/health` to the health handler,
forwards any other path that has `/mcp` as a string prefix (not only the
mount point `/mcp` and `/mcp/...` — e.g. `/mcpx` is also forwarded, see the
counterexample) to the FastMCP app, and answers every remaining path with a
404 carrying the `Not found`/hint JSON body.  Every mount-point path in the
claim's sense does satisfy the prefix test, so all of them are forwarded. -/
theorem c8_router_classes (path : String) :
    (path = "/" ∨ path = "/health" → routerDispatch path = .health) ∧
    (path ≠ "/" → path ≠ "/health" → listIsPrefixOf "/mcp".data path.data = true →
      routerDispatch path = .mcpForward) ∧
    (path ≠ "/" → path ≠ "/health" → listIsPrefixOf "/mcp".data path.data = false →
      routerDispatch path = .respond 404 notFoundBody) ∧
    (isMountPointSpec path = true → listIsPrefixOf "/mcp".data path.data = true) := by
  refine ⟨?_, ?_, ?_, ?_⟩
  · intro h
    rcases h with h | h <;> subst h <;> rfl
  · intro h1 h2 hpre
    have b1 : (path == "/") = false := beq_eq_false_iff_ne.mpr h1
    have b2 : (path == "/health") = false := beq_eq_false_iff_ne.mpr h2
    simp [routerDispatch, b1, b2, hpre]
  · intro h1 h2 hpre
    have b1 : (path == "/") = false := beq_eq_false_iff_ne.mpr h1
    have b2 : (path == "/health") = false := beq_eq_false_iff_ne.mpr h2
    simp [routerDispatch, b1, b2, hpre]
  · intro h
    simp only [isMountPointSpec, Bool.or_eq_true] at h
    rcases h with h | h
    · rw [show path = "/mcp" from beq_iff_eq.mp h]
      decide
    · exact listIsPrefixOf_of_append "/mcp".data "/".data path.data
        (by rw [show "/mcp".data ++ "/".data = "/mcp/".data by decide]; exact h)

/-- C8 witness: an unknown path receives the 404 JSON response, by the
theorem at a concrete path. -/
theorem c8_witness : routerDispatch "/nope" = .respond 404 notFoundBody :=
  (c8_router_classes "/nope").2.2.1 (by decide) (by decide) (by decide)

/-- C8 counterexample: `/mcpx` is not the mount point `/mcp` nor a
`/mcp/...` path, so the claim's three-class split says it gets a 404, but
`path.startswith("/mcp")` holds and the code forwards it to FastMCP. -/
theorem c8_counterexample :
    routerDispatch "/mcpx" = .mcpForward ∧ isMountPointSpec "/mcpx" = false :=
  ⟨rfl, by decide⟩

/-! ## C9: missing-credential error -/

/-- C9 (confirmed): when no key resolves from any of the four sources, the
call is refused before any HTTP traffic with the `ValueError` whose message
names all four ways to supply a key: the URL path, the `Authorization`
header, the `x-instantly-api-key` header, and the `INSTANTLY_API_KEY`
environment variable. -/
theorem c9_missing_credential (provided envKey argKey ctxKey : Option String)
    (rl : RateLimitInfo) (endpoint : String) (jsonBody : Option (List (String × JVal)))
    (timeout : Option ℚ) (resp : HttpResponse) (now : Int)
    (h1 : optTruthy argKey = false) (h2 : optTruthy ctxKey = false)
    (h3 : optTruthy provided = false) (h4 : optTruthy envKey = false) :
    (request (postInit provided envKey) rl endpoint jsonBody argKey timeout ctxKey resp
        now).issuedHttp = false ∧
    (request (postInit provided envKey) rl endpoint jsonBody argKey timeout ctxKey resp
        now).result = .missingKey missingKeyMsg ∧
    strContains missingKeyMsg "URL path: /mcp/YOUR_API_KEY" = true ∧
    strContains missingKeyMsg "Header: Authorization: YOUR_API_KEY" = true ∧
    strContains missingKeyMsg "Header: x-instantly-api-key: YOUR_API_KEY" = true ∧
    strContains missingKeyMsg "Environment: INSTANTLY_API_KEY" = true := by
  have hres : optTruthy (resolveApiKey argKey ctxKey (postInit provided envKey)) = false := by
    unfold resolveApiKey pyOr postInit
    simp [h1, h2, h3, h4]
  rw [request_of_falsy _ _ _ _ _ _ _ _ _ hres]
  exact ⟨rfl, rfl, by decide, by decide, by decide, by decide⟩

/-- C9 witness: with every source absent, the concrete call is refused
with the enumerating message, by the theorem at concrete inputs. -/
theorem c9_witness :
    (request (postInit none none) {} "/accounts" none none none none
        ⟨200, [], "", some .null⟩ 0).issuedHttp = false ∧
    (request (postInit none none) {} "/accounts" none none none none
        ⟨200, [], "", some .null⟩ 0).result = .missingKey missingKeyMsg ∧
    strContains missingKeyMsg "URL path: /mcp/YOUR_API_KEY" = true ∧
    strContains missingKeyMsg "Header: Authorization: YOUR_API_KEY" = true ∧
    strContains missingKeyMsg "Header: x-instantly-api-key: YOUR_API_KEY" = true ∧
    strContains missingKeyMsg "Environment: INSTANTLY_API_KEY" = true :=
  c9_missing_credential none none none none {} "/accounts" none none
    ⟨200, [], "", some .null⟩ 0 rfl rfl rfl rfl

/-! ## C10: success-path normalisation -/

/-- C10 (confirmed): a 204 response yields the normalized marker
`{"success": true}` regardless of the body; any other response with status
below 400 yields the parsed JSON body verbatim. -/
theorem c10_success_normalisation (instKey argKey ctxKey : Option String)
    (rl : RateLimitInfo) (endpoint : String) (jsonBody : Option (List (String × JVal)))
    (timeout : Option ℚ) (resp : HttpResponse) (now : Int)
    (hkey : optTruthy (resolveApiKey argKey ctxKey instKey) = true) :
    (resp.status = 204 →
      (request instKey rl endpoint jsonBody argKey timeout ctxKey resp now).result =
        .ok (.obj [("success", .bool true)])) ∧
    (resp.status < 400 → resp.status ≠ 204 → ∀ v, resp.jsonBody = some v →
      (request instKey rl endpoint jsonBody argKey timeout ctxKey resp now).result =
        .ok v) := by
  rw [request_of_truthy _ _ _ _ _ _ _ _ _ hkey]
  constructor
  · intro h204
    simp [responseResult, h204]
  · intro hlt hne v hv
    have hb : (resp.status == 204) = false := beq_eq_false_iff_ne.mpr hne
    have hge : ¬ resp.status ≥ 400 := by omega
    simp [responseResult, hge, hb, hv]

/-- C10 witness: a 204 with an unparseable body still yields the success
marker, and a 200 with a JSON body yields that body, by the theorem at
concrete inputs. -/
theorem c10_witness :
    (request (some "K") {} "/x" none none none none ⟨204, [], "not json", none⟩ 0).result =
      .ok (.obj [("success", .bool true)]) ∧
    (request (some "K") {} "/x" none none none none
        ⟨200, [], "", some (.obj [("id", .num 1)])⟩ 0).result = .ok (.obj [("id", .num 1)]) :=
  ⟨(c10_success_normalisation (some "K") none none {} "/x" none none
      ⟨204, [], "not json", none⟩ 0 (by decide)).1 rfl,
    (c10_success_normalisation (some "K") none none {} "/x" none none
      ⟨200, [], "", some (.obj [("id", .num 1)])⟩ 0 (by decide)).2 (by decide) (by decide)
      (.obj [("id", .num 1)]) rfl⟩

end InstantlyMcp
